import Mathlib

/-!
Verification of the grist-core sandbox data layer: the column store
(`sandbox/grist/column.py`) and the RPC transport (`sandbox/grist/sandbox.py`),
shallowly embedded in Lean.
-/

set_option maxHeartbeats 1000000

namespace Grist

/-- Model of a Python value as stored in a column cell or carried in an RPC
message.  Floats are modelled exactly as rationals (the values that arise in
the code are integers and timestamps, all exact); `exc` models an
`objtypes.RaisedException` sentinel wrapping a caught error (exception type
name and message); `alt` models a stored alternate-text value. -/
inductive PyVal where
  | none
  | bool (b : Bool)
  | int (n : Int)
  | float (q : Rat)
  | str (s : String)
  | list (l : List PyVal)
  | exc (ename : String) (emsg : String)
  | alt (s : String) (typename : String)

namespace PyVal

/-- Numeric view used by Python `==`: booleans, ints and floats compare by
numeric value (`True == 1`, `5 == 5.0`). -/
def asNum : PyVal → Option Rat
  | .bool b => some (if b then 1 else 0)
  | .int n => some (n : Rat)
  | .float q => some q
  | _ => Option.none

/-- Python `value == q` for a numeric constant `q`, as used by the code's
comparisons against `1`, `0` and the position default: true exactly when
`value` is numeric (bool/int/float) with numeric value `q`. -/
def eqNum (v : PyVal) (q : Rat) : Bool :=
  asNum v == some q

/-- Python `==` between a stored value and the originally supplied value, at
the Prop level: either structurally the same value, or both numeric with the
same numeric value. -/
def pyEquiv (x y : PyVal) : Prop :=
  x = y ∨ ∃ q, asNum x = some q ∧ asNum y = some q

theorem pyEquiv_refl (x : PyVal) : pyEquiv x x := Or.inl rfl

/-- Python truthiness of a value. -/
def truthy : PyVal → Bool
  | .none => false
  | .bool b => b
  | .int n => n != 0
  | .float q => q != 0
  | .str s => s ≠ ""
  | .list l => !l.isEmpty
  | .exc _ _ => true
  | .alt _ _ => true

/-- Python's type name of a value (`type(v).__name__`). -/
def typeName : PyVal → String
  | .none => "NoneType"
  | .bool _ => "bool"
  | .int _ => "int"
  | .float _ => "float"
  | .str _ => "str"
  | .list _ => "list"
  | .exc _ _ => "RaisedException"
  | .alt _ _ => "AltText"

/-- A rendering of Python `str(v)` for the values we model.  Only the facts
that it exists and is computed from the raw value matter to the claims; the
exact text of compound values is a best-effort rendering. -/
def pyStr : PyVal → String
  | .none => "None"
  | .bool b => if b then "True" else "False"
  | .int n => toString n
  | .float q => if q.den = 1 then toString q.num ++ ".0" else toString q.num ++ "/" ++ toString q.den
  | .str s => s
  | .list _ => "[...]"
  | .exc n m => n ++ ": " ++ m
  | .alt s _ => s

end PyVal

/-- The part of a `usertypes` type object that `column.py` uses: a default
value, the right-type predicate, and the type's display name. -/
structure TypeObj where
  default : PyVal
  is_right_type : PyVal → Bool
  typename : String

/-- Storage after `BaseColumn.growto(size)`: extend with the default value up
to `size`, no-op if already that long. -/
def growList (l : List PyVal) (d : PyVal) (size : Nat) : List PyVal :=
  if l.length < size then l ++ List.replicate (size - l.length) d else l

/-- Storage after the assignment in `BaseColumn.set`: try `data[r] = v`; on
`IndexError` grow to `r+1` and assign.  (When `r < len` the growth is a
no-op, so the two branches coincide in this form.) -/
def setList (l : List PyVal) (d : PyVal) (r : Nat) (v : PyVal) : List PyVal :=
  (growList l d (r + 1)).set r v

/-- `BaseColumn`: the type object together with the `_data` storage list. -/
structure BaseColumn where
  type_obj : TypeObj
  _data : List PyVal

namespace BaseColumn

def getdefault (c : BaseColumn) : PyVal := c.type_obj.default

def growto (c : BaseColumn) (size : Nat) : BaseColumn :=
  { c with _data := growList c._data c.getdefault size }

/-- `BaseColumn.__init__`: `_data = []` then `growto(1)`. -/
def init (t : TypeObj) : BaseColumn := growto ⟨t, []⟩ 1

def size (c : BaseColumn) : Nat := c._data.length

def set (c : BaseColumn) (row_id : Nat) (value : PyVal) : BaseColumn :=
  { c with _data := setList c._data c.getdefault row_id value }

def unset (c : BaseColumn) (row_id : Nat) : BaseColumn := c.set row_id c.getdefault

def raw_get (c : BaseColumn) (row_id : Nat) : PyVal := c._data.getD row_id c.getdefault

def safe_get (c : BaseColumn) (row_id : Nat) : PyVal :=
  if c.type_obj.is_right_type (c.raw_get row_id) then c.raw_get row_id else c.getdefault

def clear (c : BaseColumn) : BaseColumn := { c with _data := growList [] c.getdefault 1 }

def destroy (c : BaseColumn) : BaseColumn := { c with _data := [] }

def copy_from_column (c other : BaseColumn) : BaseColumn := { c with _data := other._data }

end BaseColumn

/-- The rich values produced by `_make_rich_value` implementations and by
`get_cell_value`'s AltText branch. -/
inductive RichVal where
  | plain (v : PyVal)
  | altText (s : String) (typename : String)
  | record (table_id : String) (row_id : PyVal)
  | recordSet (table_id : String) (row_ids : List PyVal)

/-- `BaseColumn.get_cell_value`, with the variant's `_make_rich_value` passed
in as `mk`: re-raise a stored `RaisedException`, project a right-typed value,
otherwise build an AltText from `str(raw)` and the type name. -/
def get_cell_value (c : BaseColumn) (mk : PyVal → RichVal) (row_id : Nat) :
    Except (String × String) RichVal :=
  match c.raw_get row_id with
  | .exc n m => .error (n, m)
  | raw =>
    if c.type_obj.is_right_type raw then .ok (mk raw)
    else .ok (.altText raw.pyStr c.type_obj.typename)

/-- `BoolColumn.set`'s adjustment: `True if value == 1 else (False if value
== 0 else value)` (Python `==`, so `1.0` and `True` also match `1`). -/
def boolAdjust (v : PyVal) : PyVal :=
  if v.eqNum 1 then .bool true else if v.eqNum 0 then .bool false else v

def BoolColumn.set (c : BaseColumn) (row_id : Nat) (value : PyVal) : BaseColumn :=
  BaseColumn.set c row_id (boolAdjust value)

/-- `NumericColumn.set`'s adjustment: `float(value) if type(value) == int
else value` — exactly ints (not bools) become floats. -/
def numAdjust (v : PyVal) : PyVal :=
  match v with
  | .int n => .float (n : Rat)
  | _ => v

def NumericColumn.set (c : BaseColumn) (row_id : Nat) (value : PyVal) : BaseColumn :=
  BaseColumn.set c row_id (numAdjust value)

/-- `MANUAL_SORT_DEFAULT` from column.py. -/
def manualSortDefault : Rat := 2147483647

/-- Modelled from the spec (`usertypes.PositionNumber` is outside src/): the
position type's default is the manual-sort default float. -/
def positionDefault : PyVal := .float manualSortDefault

/-- `PositionColumn`: numeric storage plus `_sorted_rows`, the index of rows
ordered by their position key.  Modelled from the spec
(`sortedcontainers.SortedListWithKey` is outside src/): only the multiset of
row ids it contains matters to the claims, so it is kept as a `Multiset`;
`discard` removes one occurrence, `add` inserts one. -/
structure PositionColumn where
  _data : List PyVal
  _sorted_rows : Multiset Nat

namespace PositionColumn

def raw_get (p : PositionColumn) (row_id : Nat) : PyVal := p._data.getD row_id positionDefault

/-- `PositionColumn.set`: discard the row from the index, do the numeric
`set`, then add the row back unless `value != self.getdefault()` fails. -/
def set (p : PositionColumn) (row_id : Nat) (value : PyVal) : PositionColumn :=
  let s := p._sorted_rows.erase row_id
  { _data := setList p._data positionDefault row_id (numAdjust value),
    _sorted_rows := if value.eqNum manualSortDefault then s else row_id ::ₘ s }

/-- The position-index invariant claimed by the spec: the index holds exactly
the rows whose stored value differs (Python `!=`) from the type default, each
once. -/
def Inv (p : PositionColumn) : Prop :=
  ∀ r : Nat, p._sorted_rows.count r = if (p.raw_get r).eqNum manualSortDefault then 0 else 1

end PositionColumn

/-- Modelled from the spec (`relation.ReferenceRelation` is outside src/):
the relation index restricted to one reference column, as the multiset of
(referencing row id, target row id) pairs; `add_reference` inserts a pair,
`remove_reference` removes one occurrence, `clear` empties it. -/
structure ReferenceRelation where
  pairs : Multiset (Nat × Int)

def ReferenceRelation.add_reference (rel : ReferenceRelation) (row_id : Nat) (target : Int) :
    ReferenceRelation := ⟨(row_id, target) ::ₘ rel.pairs⟩

def ReferenceRelation.remove_reference (rel : ReferenceRelation) (row_id : Nat) (target : Int) :
    ReferenceRelation := ⟨rel.pairs.erase (row_id, target)⟩

def ReferenceRelation.clear (_rel : ReferenceRelation) : ReferenceRelation := ⟨0⟩

/-- Modelled from the spec (`usertypes.Reference` is outside src/): values of
a single-reference column are target row ids (ints), default `0`. -/
def refRightType : PyVal → Bool
  | .int _ => true
  | _ => false

def refDefault : PyVal := .int 0

/-- The target row id carried by a (right-typed) reference cell value. -/
def toRefId : PyVal → Int
  | .int n => n
  | _ => 0

/-- `ReferenceColumn`: storage plus the column's relation handle. -/
structure ReferenceColumn where
  _data : List PyVal
  _relation : ReferenceRelation

namespace ReferenceColumn

def raw_get (c : ReferenceColumn) (row_id : Nat) : PyVal := c._data.getD row_id refDefault

def safe_get (c : ReferenceColumn) (row_id : Nat) : PyVal :=
  if refRightType (c.raw_get row_id) then c.raw_get row_id else refDefault

/-- `ReferenceColumn._update_references`: unlink the old value if truthy,
link the new value if truthy. -/
def _update_references (rel : ReferenceRelation) (row_id : Nat) (old new : PyVal) :
    ReferenceRelation :=
  if new.truthy
  then (if old.truthy then rel.remove_reference row_id (toRefId old) else rel).add_reference
    row_id (toRefId new)
  else (if old.truthy then rel.remove_reference row_id (toRefId old) else rel)

/-- `BaseReferenceColumn.set`: read the well-typed-or-default value before
and after the base `set`, then update the relation. -/
def set (c : ReferenceColumn) (row_id : Nat) (value : PyVal) : ReferenceColumn :=
  let old := c.safe_get row_id
  let c' : ReferenceColumn := { c with _data := setList c._data refDefault row_id value }
  let new := c'.safe_get row_id
  { c' with _relation := _update_references c._relation row_id old new }

def unset (c : ReferenceColumn) (row_id : Nat) : ReferenceColumn := c.set row_id refDefault

/-- The forward links a single-reference cell contributes to the relation:
its stored target if right-typed and nonzero. -/
def contrib (data : List PyVal) (a : Nat) : Multiset Int :=
  match data.getD a refDefault with
  | .int n => if n ≠ 0 then {n} else 0
  | _ => 0

/-- The reference-relation invariant claimed by the spec: the relation index
is exactly the links induced by the current storage. -/
def Inv (c : ReferenceColumn) : Prop :=
  ∀ (a : Nat) (b : Int), c._relation.pairs.count (a, b) = (contrib c._data a).count b

end ReferenceColumn

/-- Modelled from the spec (`usertypes.ReferenceList` is outside src/):
values of a reference-list column are `None` (the default) or lists of
target row ids (ints). -/
def refListRightType : PyVal → Bool
  | .none => true
  | .list l => l.all fun v => match v with | .int _ => true | _ => false
  | _ => false

/-- The target ids in a reference-list cell value (`old_list or ()` iterates
the list; `None` iterates nothing). -/
def refListElems : PyVal → List Int
  | .list l => l.filterMap fun v => match v with | .int n => some n | _ => Option.none
  | _ => []

/-- `ReferenceListColumn`: storage plus the column's relation handle. -/
structure ReferenceListColumn where
  _data : List PyVal
  _relation : ReferenceRelation

/-- Erase one relation pair `(r, t)` per element `t` of `L`
(the unlink loop of `ReferenceListColumn._update_references`). -/
def removeRefs (rel : Multiset (Nat × Int)) (r : Nat) (L : List Int) : Multiset (Nat × Int) :=
  L.foldl (fun s t => s.erase (r, t)) rel

/-- Insert one relation pair `(r, t)` per element `t` of `L`
(the link loop of `ReferenceListColumn._update_references`). -/
def addRefs (rel : Multiset (Nat × Int)) (r : Nat) (L : List Int) : Multiset (Nat × Int) :=
  L.foldl (fun s t => (r, t) ::ₘ s) rel

namespace ReferenceListColumn

def raw_get (c : ReferenceListColumn) (row_id : Nat) : PyVal := c._data.getD row_id .none

def safe_get (c : ReferenceListColumn) (row_id : Nat) : PyVal :=
  if refListRightType (c.raw_get row_id) then c.raw_get row_id else .none

/-- `ReferenceListColumn._update_references`: unlink every element of the
old list, link every element of the new list. -/
def _update_references (rel : ReferenceRelation) (row_id : Nat) (old new : PyVal) :
    ReferenceRelation :=
  ⟨addRefs (removeRefs rel.pairs row_id (refListElems old)) row_id (refListElems new)⟩

/-- `BaseReferenceColumn.set` for the list variant. -/
def set (c : ReferenceListColumn) (row_id : Nat) (value : PyVal) : ReferenceListColumn :=
  let old := c.safe_get row_id
  let c' : ReferenceListColumn := { c with _data := setList c._data .none row_id value }
  let new := c'.safe_get row_id
  { c' with _relation := _update_references c._relation row_id old new }

/-- The forward links a reference-list cell contributes to the relation: all
elements of its stored list when right-typed. -/
def contrib (data : List PyVal) (a : Nat) : Multiset Int :=
  if refListRightType (data.getD a .none)
  then ((refListElems (data.getD a .none) : List Int) : Multiset Int) else 0

/-- The reference-relation invariant for the list variant. -/
def Inv (c : ReferenceListColumn) : Prop :=
  ∀ (a : Nat) (b : Int), c._relation.pairs.count (a, b) = (contrib c._data a).count b

end ReferenceListColumn

/-! ## The RPC transport (`sandbox.py`)

Messages are (code, body) pairs with code CALL/DATA/EXC; the `marshal`
framing is byte-level and out of scope, so the inbound pipe is a list of
messages and the outbound pipe a list of produced messages.  A registered
function is modelled as returning a `Prog`: it either returns a value,
raises, or issues a nested `call_external` and continues with the reply.
The loop is given explicit fuel to express termination; every claim is
stated with enough fuel for the behavior it describes. -/

/-- One framed message: msgCode (CALL = None, DATA = True, EXC = False in
the source) plus body. -/
inductive Msg where
  | call (body : PyVal)
  | data (v : PyVal)
  | exc (v : PyVal)

/-- The body of a registered function: return, raise (exception type name
and message), or a nested `call_external` with a continuation receiving the
reply's DATA payload. -/
inductive Prog where
  | ret (v : PyVal)
  | raiseE (ename : String) (emsg : String)
  | callExt (name : String) (args : List PyVal) (k : PyVal → Prog)

/-- The `_functions` registry. -/
def Funcs : Type := String → Option (List PyVal → Prog)

/-- The error that `raise ValueError("Bad call " + data)` actually produces:
the intended ValueError when `data` is a string, otherwise the TypeError
raised by the string concatenation itself. -/
def badCallError (body : PyVal) : String × String :=
  match body with
  | .str s => ("ValueError", "Bad call " ++ s)
  | v => ("TypeError", "can only concatenate str (not \"" ++ v.typeName ++ "\") to str")

/-- The well-formedness check on a CALL body (`isinstance(data, list) and
len(data) >= 1`), splitting it into function name and arguments. -/
def callBody : PyVal → Option (PyVal × List PyVal)
  | .list (fname :: args) => some (fname, args)
  | _ => Option.none

/-- `self._functions[fname]`: only string names can be registered. -/
def lookupFn (funcs : Funcs) (fname : PyVal) : Option (List PyVal → Prog) :=
  match fname with
  | .str s => funcs s
  | _ => Option.none

/-- Python `str(KeyError(k))`, i.e. `repr(k)`. -/
def pyRepr : PyVal → String
  | .str s => "'" ++ s ++ "'"
  | v => v.pyStr

/-- Outcome of `Sandbox.run`: normal return on EOF, a `(msgCode, data)`
reply when `break_on_response` is set, or a propagating exception
(disconnection, malformed CALL).  `outOfFuel` is the fuel artifact. -/
inductive RunResult where
  | done
  | reply (isData : Bool) (v : PyVal)
  | raised (e : String × String)
  | outOfFuel

/-- Outcome of invoking a registered function. -/
inductive ExecResult where
  | ok (v : PyVal)
  | err (e : String × String)
  | outOfFuel

mutual

/-- `Sandbox.run(break_on_response)`: consume inbound messages, dispatch
CALLs (sending DATA/EXC replies), return the first non-CALL message when
`break_on_response` is set, stop on EOF.  Returns (outbound messages,
remaining inbound stream, result). -/
def runS : Nat → Funcs → Bool → List Msg → List Msg × List Msg × RunResult
  | 0, _, _, s => ([], s, .outOfFuel)
  | _ + 1, _, brk, [] =>
    ([], [], if brk then .raised ("Exception", "Sandbox disconnected unexpectedly") else .done)
  | fuel + 1, funcs, brk, .data v :: rest =>
    if brk then ([], rest, .reply true v) else runS fuel funcs brk rest
  | fuel + 1, funcs, brk, .exc v :: rest =>
    if brk then ([], rest, .reply false v) else runS fuel funcs brk rest
  | fuel + 1, funcs, brk, .call body :: rest =>
    match callBody body with
    | Option.none => ([], rest, .raised (badCallError body))
    | some (fname, args) =>
      match lookupFn funcs fname with
      | Option.none =>
        let (o, s', res) := runS fuel funcs brk rest
        (Msg.exc (.str ("KeyError " ++ pyRepr fname)) :: o, s', res)
      | some f =>
        match execP fuel funcs (f args) rest with
        | (o1, s1, .ok v) =>
          let (o2, s2, res) := runS fuel funcs brk s1
          (o1 ++ Msg.data v :: o2, s2, res)
        | (o1, s1, .err (n, m)) =>
          let (o2, s2, res) := runS fuel funcs brk s1
          (o1 ++ Msg.exc (.str (n ++ " " ++ m)) :: o2, s2, res)
        | (o1, s1, .outOfFuel) => (o1, s1, .outOfFuel)

/-- Execute a registered function's body against the shared inbound stream:
`callExt` is `Sandbox.call_external` — send CALL, run the receive loop with
`break_on_response=True`, continue with the DATA payload or raise
`Exception(data)` on EXC; exceptions from the nested loop propagate. -/
def execP : Nat → Funcs → Prog → List Msg → List Msg × List Msg × ExecResult
  | 0, _, _, s => ([], s, .outOfFuel)
  | _ + 1, _, .ret v, s => ([], s, .ok v)
  | _ + 1, _, .raiseE n m, s => ([], s, .err (n, m))
  | fuel + 1, funcs, .callExt name args k, s =>
    let sent := Msg.call (.list (.str name :: args))
    match runS fuel funcs true s with
    | (o, s', .reply true v) =>
      let (o2, s2, res) := execP fuel funcs (k v) s'
      (sent :: o ++ o2, s2, res)
    | (o, s', .reply false v) => (sent :: o, s', .err ("Exception", v.pyStr))
    | (o, s', .raised e) => (sent :: o, s', .err e)
    | (o, s', .done) => (sent :: o, s', .outOfFuel)
    | (o, s', .outOfFuel) => (sent :: o, s', .outOfFuel)

end

/-- Top-level `sandbox.call_external(name, *args)`: a `callExt` whose
continuation just returns the reply. -/
def call_external (fuel : Nat) (funcs : Funcs) (name : String) (args : List PyVal)
    (s : List Msg) : List Msg × List Msg × ExecResult :=
  execP fuel funcs (.callExt name args Prog.ret) s

/-- The single reply message produced by dispatching a CALL whose handler
does not itself consume the stream (returns, raises, or is unregistered). -/
def dispatchReply (funcs : Funcs) (body : PyVal) : Msg :=
  match callBody body with
  | Option.none => Msg.exc (.str "")
  | some (fname, args) =>
    match lookupFn funcs fname with
    | Option.none => Msg.exc (.str ("KeyError " ++ pyRepr fname))
    | some f =>
      match f args with
      | .ret v => Msg.data v
      | .raiseE n m => Msg.exc (.str (n ++ " " ++ m))
      | _ => Msg.exc (.str "")

/-- A CALL body is "simple" when it is well-formed and its handler (if
registered) immediately returns or raises, without nesting. -/
def SimpleCall (funcs : Funcs) (body : PyVal) : Prop :=
  ∃ fname args, callBody body = some (fname, args) ∧
    match lookupFn funcs fname with
    | Option.none => True
    | some f => (∃ v, f args = .ret v) ∨ (∃ n m, f args = .raiseE n m)

/-! ## Concrete instances used in closed statements -/

/-- A permissive type object (like `usertypes.Any`). -/
def anyType : TypeObj := ⟨.none, fun _ => true, "Any"⟩

/-- An integer type object with default `0`. -/
def intType : TypeObj :=
  ⟨.int 0, fun v => match v with | .int _ => true | _ => false, "Int"⟩

/-- A column holding a captured-error sentinel at row 1. -/
def excCol : BaseColumn :=
  BaseColumn.set (BaseColumn.init intType) 1 (.exc "ValueError" "boom")

/-- A registry with one function `"h"` that returns `5`. -/
def hFuncs : Funcs := fun s => if s = "h" then some (fun _ => .ret (.int 5)) else Option.none

/-- An empty function registry. -/
def noFuncs : Funcs := fun _ => Option.none

/-- A fresh single-reference column with empty relation. -/
def refCol0 : ReferenceColumn := ⟨[.int 0], ⟨0⟩⟩

/-- A fresh reference-list column with empty relation. -/
def refListCol0 : ReferenceListColumn := ⟨[.none], ⟨0⟩⟩

/-- A fresh position column with empty index. -/
def posCol0 : PositionColumn := ⟨[positionDefault], 0⟩

/-! ## Storage-list lemmas -/

theorem growList_length (l : List PyVal) (d : PyVal) (s : Nat) :
    (growList l d s).length = max l.length s := by
  unfold growList
  split <;> simp <;> omega

theorem growList_getD (l : List PyVal) (d : PyVal) (s : Nat) (i : Nat) :
    (growList l d s).getD i d = l.getD i d := by
  unfold growList
  split
  · by_cases hi : i < l.length
    · simp [List.getD_eq_getElem?_getD, List.getElem?_append, hi]
    · by_cases hi2 : i - l.length < s - l.length
      · simp [List.getD_eq_getElem?_getD, List.getElem?_append, hi,
          List.getElem?_replicate, hi2, List.getElem?_eq_none (le_of_not_lt hi)]
      · simp [List.getD_eq_getElem?_getD, List.getElem?_append, hi,
          List.getElem?_replicate, hi2, List.getElem?_eq_none (le_of_not_lt hi)]
  · rfl

theorem setList_length (l : List PyVal) (d : PyVal) (r : Nat) (v : PyVal) :
    (setList l d r v).length = max l.length (r + 1) := by
  simp [setList, growList_length]

theorem setList_getD_self (l : List PyVal) (d d' : PyVal) (r : Nat) (v : PyVal) :
    (setList l d r v).getD r d' = v := by
  have hr : r < (growList l d (r + 1)).length := by
    rw [growList_length]; omega
  simp [setList, List.getD_eq_getElem?_getD, List.getElem?_set_self (by simpa using hr)]

theorem setList_getD_ne (l : List PyVal) (d : PyVal) (r : Nat) (v : PyVal) (i : Nat)
    (h : i ≠ r) : (setList l d r v).getD i d = l.getD i d := by
  rw [setList, List.getD_eq_getElem?_getD, List.getElem?_set_ne (Ne.symm h),
    ← List.getD_eq_getElem?_getD, growList_getD]

/-! ## Base-column lemmas -/

theorem raw_get_set_self (c : BaseColumn) (r : Nat) (v : PyVal) :
    (c.set r v).raw_get r = v := by
  simp only [BaseColumn.set, BaseColumn.raw_get]
  exact setList_getD_self c._data c.getdefault c.getdefault r v

theorem raw_get_set_ne (c : BaseColumn) (r i : Nat) (v : PyVal) (h : i ≠ r) :
    (c.set r v).raw_get i = c.raw_get i := by
  simp only [BaseColumn.set, BaseColumn.raw_get]
  exact setList_getD_ne c._data c.getdefault r v i h

theorem eqNum_asNum {v : PyVal} {q : Rat} (h : v.eqNum q = true) : v.asNum = some q := by
  simpa [PyVal.eqNum] using h

theorem numAdjust_equiv (v : PyVal) : PyVal.pyEquiv (numAdjust v) v := by
  cases v <;> simp [numAdjust, PyVal.pyEquiv, PyVal.asNum]

/-- C1, as stated, is false: `BoolColumn.set(1, 1)` stores `True`, not the
supplied int `1`. -/
theorem claim_C1_counterexample :
    (BoolColumn.set (BaseColumn.init anyType) 1 (.int 1)).raw_get 1 ≠ PyVal.int 1 := by
  intro h
  have h' : PyVal.bool true = PyVal.int 1 := by
    rw [← h]
    rfl
  exact PyVal.noConfusion h'

/-- C1 (amended): `set` stores the supplied value verbatim for the base
column and the reference variants; `BoolColumn` normalizes Python-`==`-to-1/0
values to `True`/`False` and `NumericColumn` (hence Date/DateTime/Position)
converts plain ints to floats, so in every variant the stored value read
back by `raw_get` is Python-`==` to the supplied value. -/
theorem claim_C1 (c : BaseColumn) (p : PositionColumn) (rc : ReferenceColumn)
    (rl : ReferenceListColumn) (r : Nat) (v : PyVal) :
    (c.set r v).raw_get r = v
    ∧ PyVal.pyEquiv ((BoolColumn.set c r v).raw_get r) v
    ∧ PyVal.pyEquiv ((NumericColumn.set c r v).raw_get r) v
    ∧ PyVal.pyEquiv ((p.set r v).raw_get r) v
    ∧ (rc.set r v).raw_get r = v
    ∧ (rl.set r v).raw_get r = v := by
  refine ⟨raw_get_set_self c r v, ?_, ?_, ?_, ?_, ?_⟩
  · rw [BoolColumn.set, raw_get_set_self]
    by_cases h1 : v.eqNum 1
    · have := eqNum_asNum h1
      exact Or.inr ⟨1, by simp [boolAdjust, h1, PyVal.asNum], this⟩
    · by_cases h0 : v.eqNum 0
      · have := eqNum_asNum h0
        exact Or.inr ⟨0, by simp [boolAdjust, h1, h0, PyVal.asNum], this⟩
      · simp only [boolAdjust, h1, h0, if_false]
        exact PyVal.pyEquiv_refl v
  · rw [NumericColumn.set, raw_get_set_self]
    exact numAdjust_equiv v
  · have hp : (p.set r v).raw_get r = numAdjust v := by
      simp only [PositionColumn.set, PositionColumn.raw_get]
      exact setList_getD_self p._data positionDefault positionDefault r (numAdjust v)
    rw [hp]
    exact numAdjust_equiv v
  · simp only [ReferenceColumn.set, ReferenceColumn.raw_get]
    exact setList_getD_self rc._data refDefault refDefault r v
  · simp only [ReferenceListColumn.set, ReferenceListColumn.raw_get]
    exact setList_getD_self rl._data .none .none r v

/-- C5, as stated, is false: `copy_from_column` replaces the storage with
the other column's storage, which can be strictly shorter — here a column
grown to length 3 shrinks back to length 1, though `copy_from_column` is
neither `clear` nor `destroy`. -/
theorem claim_C5_counterexample :
    ((BaseColumn.set (BaseColumn.init intType) 2 (.int 5)).copy_from_column
        (BaseColumn.init intType)).size
      < (BaseColumn.set (BaseColumn.init intType) 2 (.int 5)).size := by
  decide

/-- C5 (amended): the storage length is 1 at creation, is non-decreasing
under `growto`, `set` and `unset` (and at least 1 after any `set`), is
exactly 1 after `clear`, 0 after `destroy`, and becomes the source column's
length after `copy_from_column` — which may therefore shrink it. -/
theorem claim_C5 (t : TypeObj) (c other : BaseColumn) (r s : Nat) (v : PyVal) :
    (BaseColumn.init t).size = 1
    ∧ c.size ≤ (c.growto s).size
    ∧ c.size ≤ (c.set r v).size
    ∧ c.size ≤ (c.unset r).size
    ∧ 1 ≤ (c.set r v).size
    ∧ (1 ≤ c.size → 1 ≤ (c.growto s).size)
    ∧ c.clear.size = 1
    ∧ c.destroy.size = 0
    ∧ (c.copy_from_column other).size = other.size := by
  refine ⟨?_, ?_, ?_, ?_, ?_, ?_, ?_, rfl, rfl⟩
  · simp [BaseColumn.init, BaseColumn.growto, BaseColumn.size, growList_length]
  · simp [BaseColumn.growto, BaseColumn.size, growList_length]
  · simp [BaseColumn.set, BaseColumn.size, setList_length]
  · simp [BaseColumn.unset, BaseColumn.set, BaseColumn.size, setList_length]
  · simp [BaseColumn.set, BaseColumn.size, setList_length]
  · intro h
    have hg := growList_length c._data c.getdefault s
    simp only [BaseColumn.growto, BaseColumn.size] at *
    omega
  · simp [BaseColumn.clear, BaseColumn.size, growList_length]

/-- Witness for the hypothesis-bearing conjunct of C5. -/
theorem claim_C5_witness :
    1 ≤ ((BaseColumn.init intType).growto 0).size :=
  (claim_C5 intType (BaseColumn.init intType) (BaseColumn.init intType) 0 0 .none).2.2.2.2.2.1
    (by decide)

theorem asNum_numAdjust (v : PyVal) : (numAdjust v).asNum = v.asNum := by
  cases v <;> rfl

theorem eqNum_numAdjust (v : PyVal) (q : Rat) : (numAdjust v).eqNum q = v.eqNum q := by
  simp [PyVal.eqNum, asNum_numAdjust]

/-- C6: `PositionColumn.set` preserves the index invariant — after every
set, the index holds exactly the rows whose stored value differs from the
type default (`set` discards the row, stores numerically, and re-adds the
row unless the value equals the default). -/
theorem claim_C6 (p : PositionColumn) (r : Nat) (v : PyVal) (h : p.Inv) :
    (p.set r v).Inv := by
  intro r'
  have hcnt := h r'
  by_cases hr : r' = r
  · subst hr
    have hraw : (p.set r' v).raw_get r' = numAdjust v := by
      simp only [PositionColumn.set, PositionColumn.raw_get]
      exact setList_getD_self _ _ _ _ _
    rw [hraw, eqNum_numAdjust]
    simp only [PositionColumn.set]
    by_cases hv : v.eqNum manualSortDefault
    · simp only [hv, if_true]
      rw [Multiset.count_erase_self, hcnt]
      split <;> rfl
    · simp only [hv, Bool.false_eq_true, if_false]
      rw [Multiset.count_cons_self, Multiset.count_erase_self, hcnt]
      split <;> rfl
  · have hraw : (p.set r v).raw_get r' = p.raw_get r' := by
      simp only [PositionColumn.set, PositionColumn.raw_get]
      exact setList_getD_ne _ _ _ _ _ hr
    rw [hraw]
    simp only [PositionColumn.set]
    by_cases hv : v.eqNum manualSortDefault
    · simp only [hv, if_true]
      rw [Multiset.count_erase_of_ne hr, hcnt]
    · simp only [hv, Bool.false_eq_true, if_false]
      rw [Multiset.count_cons_of_ne hr, Multiset.count_erase_of_ne hr, hcnt]

/-- Witness for C6 at a fresh position column. -/
theorem claim_C6_witness : (posCol0.set 3 (.float 5)).Inv :=
  claim_C6 posCol0 3 (.float 5)
    (by
      intro r
      cases r <;>
        simp [PositionColumn.raw_get, posCol0, positionDefault, PyVal.eqNum, PyVal.asNum])

/-! ## Reference-relation lemmas -/

theorem count_removeRefs (L : List Int) (rel : Multiset (Nat × Int)) (r : Nat) (a : Nat)
    (b : Int) :
    (removeRefs rel r L).count (a, b)
      = rel.count (a, b) - (if a = r then L.count b else 0) := by
  induction L generalizing rel with
  | nil => simp [removeRefs]
  | cons t ts ih =>
    have hstep : removeRefs rel r (t :: ts) = removeRefs (rel.erase (r, t)) r ts := rfl
    rw [hstep, ih]
    by_cases ha : a = r
    · subst ha
      by_cases hb : b = t
      · subst hb
        rw [Multiset.count_erase_self]
        simp [List.count_cons]
        omega
      · rw [Multiset.count_erase_of_ne (by simp [hb])]
        simp [List.count_cons, hb]
    · rw [Multiset.count_erase_of_ne (by simp [ha])]
      simp [ha]

theorem count_addRefs (L : List Int) (rel : Multiset (Nat × Int)) (r : Nat) (a : Nat)
    (b : Int) :
    (addRefs rel r L).count (a, b)
      = rel.count (a, b) + (if a = r then L.count b else 0) := by
  induction L generalizing rel with
  | nil => simp [addRefs]
  | cons t ts ih =>
    have hstep : addRefs rel r (t :: ts) = addRefs ((r, t) ::ₘ rel) r ts := rfl
    rw [hstep, ih]
    by_cases ha : a = r
    · subst ha
      by_cases hb : b = t
      · subst hb
        rw [Multiset.count_cons_self]
        simp [List.count_cons]
        omega
      · rw [Multiset.count_cons_of_ne (by simp [hb])]
        simp [List.count_cons, hb]
    · rw [Multiset.count_cons_of_ne (by simp [ha])]
      simp [ha]

/-- `safe_get` of a single-reference column is always an int, and the
column's induced contribution at that row is that int's link when nonzero. -/
theorem ReferenceColumn.safe_get_int (c : ReferenceColumn) (r : Nat) :
    ∃ n : Int, c.safe_get r = .int n
      ∧ ReferenceColumn.contrib c._data r = (if n ≠ 0 then {n} else 0) := by
  unfold ReferenceColumn.safe_get ReferenceColumn.contrib ReferenceColumn.raw_get
  cases c._data.getD r refDefault <;> simp [refRightType, refDefault]

/-- A relation update at row `r` does not change counts at other rows. -/
theorem ReferenceColumn.count_update_ne (rel : ReferenceRelation) (r : Nat) (old new : PyVal)
    (a : Nat) (b : Int) (ha : a ≠ r) :
    (ReferenceColumn._update_references rel r old new).pairs.count (a, b)
      = rel.pairs.count (a, b) := by
  have h1 : ((a, b) : Nat × Int) ≠ (r, toRefId old) := by simp [ha]
  have h2 : ((a, b) : Nat × Int) ≠ (r, toRefId new) := by simp [ha]
  unfold ReferenceColumn._update_references ReferenceRelation.add_reference
    ReferenceRelation.remove_reference
  split_ifs <;>
    simp [Multiset.count_cons_of_ne h2, Multiset.count_erase_of_ne h1]

/-- Single-reference `set` preserves the relation invariant. -/
theorem refColumn_set_Inv (c : ReferenceColumn) (r : Nat) (v : PyVal) (h : c.Inv) :
    (c.set r v).Inv := by
  obtain ⟨n, hsafeO, hcontribO⟩ := ReferenceColumn.safe_get_int c r
  obtain ⟨m, hsafeN, hcontribN⟩ := ReferenceColumn.safe_get_int (c.set r v) r
  have hsafeN' :
      ReferenceColumn.safe_get { c with _data := setList c._data refDefault r v } r
        = PyVal.int m := hsafeN
  have hrel : (c.set r v)._relation
      = ReferenceColumn._update_references c._relation r (.int n) (.int m) := by
    simp only [ReferenceColumn.set]
    rw [hsafeO, hsafeN']
  intro a b
  rw [hrel]
  by_cases ha : a = r
  · rw [ha]
    have hcontribN2 :
        ReferenceColumn.contrib (c.set r v)._data r = (if m ≠ 0 then {m} else 0) := hcontribN
    rw [hcontribN2]
    have h0 : ∀ b' : Int,
        (if PyVal.truthy (.int n) = true
          then c._relation.remove_reference r n
          else c._relation).pairs.count (r, b') = 0 := by
      intro b'
      by_cases hn : n = 0
      · subst hn
        rw [if_neg (by simp [PyVal.truthy])]
        rw [h r b', hcontribO]
        simp
      · rw [if_pos (by simp [PyVal.truthy, hn])]
        by_cases hb' : b' = n
        · subst hb'
          simp only [ReferenceRelation.remove_reference]
          rw [Multiset.count_erase_self, h r b', hcontribO]
          simp [hn]
        · simp only [ReferenceRelation.remove_reference]
          rw [Multiset.count_erase_of_ne (by simp [hb']), h r b', hcontribO]
          simp [hn, Multiset.count_singleton, hb']
    unfold ReferenceColumn._update_references
    simp only [toRefId]
    by_cases hm : m = 0
    · subst hm
      rw [if_neg (by simp [PyVal.truthy])]
      rw [h0 b]
      simp
    · rw [if_pos (by simp [PyVal.truthy, hm])]
      by_cases hb : b = m
      · subst hb
        simp only [ReferenceRelation.add_reference, toRefId]
        rw [Multiset.count_cons_self, h0 b]
        simp [hm]
      · simp only [ReferenceRelation.add_reference, toRefId]
        rw [Multiset.count_cons_of_ne (by simp [hb]), h0 b]
        simp [hm, Multiset.count_singleton, hb]
  · rw [ReferenceColumn.count_update_ne c._relation r _ _ a b ha, h a b]
    have hcontrib_ne : ReferenceColumn.contrib (c.set r v)._data a
        = ReferenceColumn.contrib c._data a := by
      unfold ReferenceColumn.contrib
      have : (c.set r v)._data = setList c._data refDefault r v := rfl
      rw [this, setList_getD_ne _ _ _ _ _ ha]
    rw [hcontrib_ne]

/-- The induced contribution of a reference-list cell is the element multiset
of its `safe_get` value. -/
theorem ReferenceListColumn.contrib_safe (c : ReferenceListColumn) (r : Nat) :
    ReferenceListColumn.contrib c._data r
      = ((refListElems (c.safe_get r) : List Int) : Multiset Int) := by
  unfold ReferenceListColumn.contrib ReferenceListColumn.safe_get ReferenceListColumn.raw_get
  by_cases hrt : refListRightType (c._data.getD r .none) = true
  · rw [if_pos hrt, if_pos hrt]
  · rw [if_neg hrt, if_neg hrt]
    simp [refListElems]

/-- Reference-list `set` preserves the relation invariant. -/
theorem refListColumn_set_Inv (c : ReferenceListColumn) (r : Nat) (v : PyVal)
    (h : c.Inv) : (c.set r v).Inv := by
  intro a b
  have hrel : (c.set r v)._relation.pairs
      = addRefs (removeRefs c._relation.pairs r (refListElems (c.safe_get r))) r
          (refListElems ((c.set r v).safe_get r)) := rfl
  rw [hrel, count_addRefs, count_removeRefs]
  rw [show ReferenceListColumn.contrib (c.set r v)._data a
      = Multiset.ofList (refListElems ((c.set r v).safe_get a)) from ?hnew]
  case hnew =>
    by_cases ha : a = r
    · rw [ha]
      exact ReferenceListColumn.contrib_safe (c.set r v) r
    · have hgd : (c.set r v)._data.getD a .none = c._data.getD a .none := by
        have : (c.set r v)._data = setList c._data .none r v := rfl
        rw [this, setList_getD_ne _ _ _ _ _ ha]
      have hsafe : (c.set r v).safe_get a = c.safe_get a := by
        unfold ReferenceListColumn.safe_get ReferenceListColumn.raw_get
        rw [hgd]
      rw [hsafe, ← ReferenceListColumn.contrib_safe c a]
      unfold ReferenceListColumn.contrib
      rw [hgd]
  by_cases ha : a = r
  · rw [if_pos ha, if_pos ha, h a b, ha, ReferenceListColumn.contrib_safe c r,
      Multiset.coe_count, Multiset.coe_count]
    simp
  · rw [if_neg ha, if_neg ha, h a b]
    have hsafe : (c.set r v).safe_get a = c.safe_get a := by
      unfold ReferenceListColumn.safe_get ReferenceListColumn.raw_get
      have : (c.set r v)._data = setList c._data .none r v := rfl
      rw [this, setList_getD_ne _ _ _ _ _ ha]
    rw [hsafe, ← ReferenceListColumn.contrib_safe c a]
    simp

/-- C2: the reference relation exactly reflects stored contents after every
`set` — the invariant is preserved by single- and list-reference `set`;
setting a single reference to a valid nonzero target `t` links `(r, t)`;
a subsequent `unset` unlinks it; and after a list-reference `set` the links
at row `r` are exactly the elements of the newly stored list (every old
element unlinked, every new element linked). -/
theorem claim_C2 (c : ReferenceColumn) (cl : ReferenceListColumn) (r : Nat) (t : Int)
    (v w : PyVal) :
    (c.Inv → (c.set r v).Inv)
    ∧ (c.Inv → t ≠ 0 → (c.set r (.int t))._relation.pairs.count (r, t) = 1)
    ∧ (c.Inv → ((c.set r (.int t)).unset r)._relation.pairs.count (r, t) = 0)
    ∧ (cl.Inv → (cl.set r w).Inv)
    ∧ (cl.Inv → ∀ b : Int,
        (cl.set r w)._relation.pairs.count (r, b)
          = (refListElems ((cl.set r w).safe_get r)).count b) := by
  refine ⟨fun h => refColumn_set_Inv c r v h, fun h ht => ?_, fun h => ?_,
    fun h => refListColumn_set_Inv cl r w h, fun h b => ?_⟩
  · have hinv := refColumn_set_Inv c r (.int t) h
    rw [hinv r t]
    have hd : (c.set r (.int t))._data.getD r refDefault = PyVal.int t :=
      setList_getD_self _ _ _ _ _
    unfold ReferenceColumn.contrib
    rw [hd]
    simp [ht]
  · have hinv := refColumn_set_Inv (c.set r (.int t)) r refDefault
      (refColumn_set_Inv c r (.int t) h)
    rw [ReferenceColumn.unset, hinv r t]
    have hd : ((c.set r (.int t)).set r refDefault)._data.getD r refDefault = refDefault :=
      setList_getD_self _ _ _ _ _
    unfold ReferenceColumn.contrib
    rw [hd]
    simp [refDefault]
  · have hinv := refListColumn_set_Inv cl r w h
    rw [hinv r b, ReferenceListColumn.contrib_safe (cl.set r w) r, Multiset.coe_count]

/-- Witness for C2 at fresh reference columns. -/
theorem claim_C2_witness :
    (refCol0.set 1 (.int 7))._relation.pairs.count (1, 7) = 1
    ∧ ((refCol0.set 1 (.int 7)).unset 1)._relation.pairs.count (1, 7) = 0
    ∧ ∀ b : Int, (refListCol0.set 1 (.list [.int 2, .int 3]))._relation.pairs.count (1, b)
        = (refListElems ((refListCol0.set 1 (.list [.int 2, .int 3])).safe_get 1)).count b := by
  have hinv : refCol0.Inv := by
    intro a b
    cases a <;> simp [refCol0, ReferenceColumn.contrib, refDefault]
  have hinvL : refListCol0.Inv := by
    intro a b
    cases a <;> simp [refListCol0, ReferenceListColumn.contrib, refListRightType, refListElems]
  exact ⟨(claim_C2 refCol0 refListCol0 1 7 (.int 7) .none).2.1 hinv (by decide),
    (claim_C2 refCol0 refListCol0 1 7 (.int 7) .none).2.2.1 hinv,
    (claim_C2 refCol0 refListCol0 1 7 (.int 7) (.list [.int 2, .int 3])).2.2.2.2 hinvL⟩

/-- C7: reading a cell as a rich value fails exactly when the stored value
is a `RaisedException` sentinel (with that wrapped error); a right-typed
value yields the variant's rich projection; anything else yields an AltText
built from `str(raw)` and the type's name. -/
theorem claim_C7 (c : BaseColumn) (mk : PyVal → RichVal) (r : Nat) :
    ((∃ e, get_cell_value c mk r = .error e) ↔ ∃ n m, c.raw_get r = .exc n m)
    ∧ (∀ n m, c.raw_get r = .exc n m → get_cell_value c mk r = .error (n, m))
    ∧ ((∀ n m, c.raw_get r ≠ .exc n m) → c.type_obj.is_right_type (c.raw_get r) = true →
        get_cell_value c mk r = .ok (mk (c.raw_get r)))
    ∧ ((∀ n m, c.raw_get r ≠ .exc n m) → c.type_obj.is_right_type (c.raw_get r) = false →
        get_cell_value c mk r = .ok (.altText (c.raw_get r).pyStr c.type_obj.typename)) := by
  cases hr : c.raw_get r <;>
    simp [get_cell_value, hr] <;>
    split_ifs <;>
    simp_all

/-- Witness for C7: the stored error at row 1 of `excCol` re-raises on rich
read, while the well-typed row 0 projects richly. -/
theorem claim_C7_witness :
    get_cell_value excCol RichVal.plain 1 = .error ("ValueError", "boom")
    ∧ get_cell_value excCol RichVal.plain 0 = .ok (RichVal.plain (.int 0)) := by
  constructor
  · exact (claim_C7 excCol RichVal.plain 1).2.1 "ValueError" "boom" rfl
  · exact (claim_C7 excCol RichVal.plain 0).2.2.1
      (by intro n m h; exact PyVal.noConfusion (show PyVal.int 0 = PyVal.exc n m from h)) rfl

/-! ## Transport lemmas and claims -/

/-- With `break_on_response` set, a leading DATA message is returned as the
reply, consuming only that message. -/
theorem runS_data (fuel : Nat) (funcs : Funcs) (v : PyVal) (rest : List Msg) :
    runS (fuel + 1) funcs true (Msg.data v :: rest) = ([], rest, .reply true v) := by
  simp [runS]

/-- With `break_on_response` set, a leading EXC message is returned as the
reply, consuming only that message. -/
theorem runS_exc (fuel : Nat) (funcs : Funcs) (v : PyVal) (rest : List Msg) :
    runS (fuel + 1) funcs true (Msg.exc v :: rest) = ([], rest, .reply false v) := by
  simp [runS]

/-- The receive loop dispatches a whole prefix of simple CALL messages —
answering each — before reaching the rest of the stream, regardless of
`break_on_response`. -/
theorem runS_dispatches_calls (funcs : Funcs) (pre : List PyVal) (brk : Bool) (fuel : Nat)
    (tail : List Msg) (h : ∀ b ∈ pre, SimpleCall funcs b) :
    runS (pre.length + (fuel + 1)) funcs brk (pre.map Msg.call ++ tail)
      = (pre.map (dispatchReply funcs) ++ (runS (fuel + 1) funcs brk tail).1,
         (runS (fuel + 1) funcs brk tail).2.1,
         (runS (fuel + 1) funcs brk tail).2.2) := by
  induction pre with
  | nil => simp
  | cons b pre ih =>
    obtain ⟨fname, args, hcb, hrest⟩ := h b (List.mem_cons_self b _)
    have hpre : ∀ x ∈ pre, SimpleCall funcs x := fun x hx => h x (List.mem_cons_of_mem b hx)
    have hlen : (b :: pre).length + (fuel + 1) = (pre.length + (fuel + 1)) + 1 := by
      simp only [List.length_cons]
      omega
    rcases hrec : runS (pre.length + (fuel + 1)) funcs brk (List.map Msg.call pre ++ tail)
      with ⟨o, s2, res⟩
    have hih := ih hpre
    rw [hrec] at hih
    rw [Prod.mk.injEq, Prod.mk.injEq] at hih
    obtain ⟨h1, h2, h3⟩ := hih
    rcases hlook : lookupFn funcs fname with _ | f
    · simp only [List.map_cons, List.cons_append, hlen]
      simp only [runS, hcb, hlook, hrec]
      simp [dispatchReply, hcb, hlook, h1, h2, h3]
    · rw [hlook] at hrest
      simp only at hrest
      rcases hrest with ⟨v, hv⟩ | ⟨n, m, hnm⟩
      · simp only [List.map_cons, List.cons_append, hlen]
        simp only [runS, hcb, hlook, hv, execP, hrec]
        simp [dispatchReply, hcb, hlook, hv, h1, h2, h3]
      · simp only [List.map_cons, List.cons_append, hlen]
        simp only [runS, hcb, hlook, hnm, execP, hrec]
        simp [dispatchReply, hcb, hlook, hnm, h1, h2, h3]

/-- C3: while a nested `call_external` awaits its reply, its private receive
loop dispatches every (simple) CALL that arrives first, and the first
DATA/EXC encountered is consumed as the reply of this innermost call — its
continuation `k` receives the DATA payload, or the EXC payload becomes this
call's failure. -/
theorem claim_C3 (funcs : Funcs) (pre : List PyVal) (g : String) (args : List PyVal)
    (k : PyVal → Prog) (v e : PyVal) (rest : List Msg) (fuel : Nat)
    (h : ∀ b ∈ pre, SimpleCall funcs b) :
    (execP (pre.length + fuel + 2) funcs (.callExt g args k)
        (pre.map Msg.call ++ Msg.data v :: rest)
      = (Msg.call (.list (.str g :: args)) :: pre.map (dispatchReply funcs)
           ++ (execP (pre.length + fuel + 1) funcs (k v) rest).1,
         (execP (pre.length + fuel + 1) funcs (k v) rest).2.1,
         (execP (pre.length + fuel + 1) funcs (k v) rest).2.2))
    ∧ (execP (pre.length + fuel + 2) funcs (.callExt g args k)
        (pre.map Msg.call ++ Msg.exc e :: rest)
      = (Msg.call (.list (.str g :: args)) :: pre.map (dispatchReply funcs), rest,
         .err ("Exception", e.pyStr))) := by
  have hd := runS_dispatches_calls funcs pre true fuel (Msg.data v :: rest) h
  have he := runS_dispatches_calls funcs pre true fuel (Msg.exc e :: rest) h
  rw [runS_data] at hd
  rw [runS_exc] at he
  simp only [List.append_nil] at hd he
  rw [← Nat.add_assoc] at hd he
  constructor
  · rcases hk : execP (pre.length + fuel + 1) funcs (k v) rest with ⟨o2, s2, res⟩
    simp only [execP, hd, hk]
  · simp only [execP, he]

/-- C4: a CALL naming a registered function is dispatched — the function is
invoked on the supplied arguments and DATA with its result is sent back; if
it raises, EXC is sent whose text is the exception type name followed by the
message; in both cases the receive loop continues on the rest of the
stream. -/
theorem claim_C4 (fuel : Nat) (funcs : Funcs) (brk : Bool) (rest : List Msg)
    (fname : String) (args : List PyVal) (f : List PyVal → Prog)
    (hf : funcs fname = some f) :
    (∀ v, f args = .ret v →
      runS (fuel + 2) funcs brk (Msg.call (.list (.str fname :: args)) :: rest)
        = (Msg.data v :: (runS (fuel + 1) funcs brk rest).1,
           (runS (fuel + 1) funcs brk rest).2.1,
           (runS (fuel + 1) funcs brk rest).2.2))
    ∧ (∀ n m, f args = .raiseE n m →
      runS (fuel + 2) funcs brk (Msg.call (.list (.str fname :: args)) :: rest)
        = (Msg.exc (.str (n ++ " " ++ m)) :: (runS (fuel + 1) funcs brk rest).1,
           (runS (fuel + 1) funcs brk rest).2.1,
           (runS (fuel + 1) funcs brk rest).2.2)) := by
  rcases hrec : runS (fuel + 1) funcs brk rest with ⟨o, s2, res⟩
  constructor
  · intro v hv
    simp only [runS, callBody, lookupFn, hf, hv, execP, hrec]
    simp
  · intro n m hnm
    simp only [runS, callBody, lookupFn, hf, hnm, execP, hrec]
    simp

/-- C8: `call_external` sends the CALL message, returns the payload of a
first DATA reply, fails with an error built from a first EXC payload, and
fails with the transport-disconnected error when the stream ends first. -/
theorem claim_C8 (fuel : Nat) (funcs : Funcs) (name : String) (args : List PyVal)
    (v e : PyVal) (rest : List Msg) :
    call_external (fuel + 2) funcs name args (Msg.data v :: rest)
      = ([Msg.call (.list (.str name :: args))], rest, .ok v)
    ∧ call_external (fuel + 2) funcs name args (Msg.exc e :: rest)
      = ([Msg.call (.list (.str name :: args))], rest, .err ("Exception", e.pyStr))
    ∧ call_external (fuel + 2) funcs name args []
      = ([Msg.call (.list (.str name :: args))], [],
         .err ("Exception", "Sandbox disconnected unexpectedly")) := by
  refine ⟨?_, ?_, ?_⟩ <;> simp [call_external, execP, runS]

/-- C9 at the failing input: a CALL whose body is the empty list terminates
the receive loop with the TypeError raised by `"Bad call " + data` itself —
not the intended descriptive ValueError — before any function lookup. -/
theorem claim_C9 :
    runS 2 noFuncs false [Msg.call (.list [])]
      = ([], [], .raised ("TypeError", "can only concatenate str (not \"list\") to str")) := by
  rfl

/-- C10: a well-formed CALL naming an unregistered function makes the
dispatch raise `KeyError`, which is caught: an EXC naming the failure is sent
back and the receive loop continues on the rest of the stream with the same
(unchanged) function registry. -/
theorem claim_C10 (fuel : Nat) (funcs : Funcs) (brk : Bool) (rest : List Msg)
    (fname : String) (args : List PyVal) (hf : funcs fname = Option.none) :
    runS (fuel + 1) funcs brk (Msg.call (.list (.str fname :: args)) :: rest)
      = (Msg.exc (.str ("KeyError " ++ pyRepr (.str fname))) :: (runS fuel funcs brk rest).1,
         (runS fuel funcs brk rest).2.1,
         (runS fuel funcs brk rest).2.2) := by
  rcases hrec : runS fuel funcs brk rest with ⟨o, s2, res⟩
  simp only [runS, callBody, lookupFn, hf, hrec]

/-- Witness for C3: while `"g"`'s nested call awaits its reply, the
interleaved CALL to `"h"` is dispatched and answered first, and the
following DATA 7 is consumed as `"g"`'s reply. -/
theorem claim_C3_witness :
    execP 3 hFuncs (.callExt "g" [] Prog.ret)
        [Msg.call (.list [.str "h"]), Msg.data (.int 7)]
      = ([Msg.call (.list [.str "g"]), Msg.data (.int 5)], [], .ok (.int 7)) := by
  have hs : ∀ b ∈ [PyVal.list [.str "h"]], SimpleCall hFuncs b := by
    intro b hb
    rw [List.mem_singleton] at hb
    subst hb
    exact ⟨.str "h", [], rfl, Or.inl ⟨.int 5, rfl⟩⟩
  have := (claim_C3 hFuncs [(.list [.str "h"])] "g" [] Prog.ret (.int 7) .none [] 0 hs).1
  simpa [dispatchReply, callBody, lookupFn, hFuncs, execP] using this

/-- Witness for C4: dispatching `["h"]` against the registry answering 5. -/
theorem claim_C4_witness :
    runS 2 hFuncs false [Msg.call (.list [.str "h"])] = ([Msg.data (.int 5)], [], .done) := by
  have := (claim_C4 0 hFuncs false [] "h" [] (fun _ => .ret (.int 5)) rfl).1 (.int 5) rfl
  simpa [runS] using this

/-- Witness for C10: an unregistered name is answered with a KeyError EXC
and the loop reaches the end of the stream normally. -/
theorem claim_C10_witness :
    runS 2 noFuncs false [Msg.call (.list [.str "nosuch"])]
      = ([Msg.exc (.str ("KeyError " ++ pyRepr (.str "nosuch")))], [], .done) := by
  have := claim_C10 1 noFuncs false [] "nosuch" [] rfl
  simpa [runS] using this

end Grist
